import Mathlib

set_option autoImplicit false
set_option linter.unusedVariables false

/-!
Shallow embedding of the DAA-Chatbot core: the text-chunking engine
(`backend/core/chunking.py`) and the RAG pipeline
(`backend/core/rag_pipeline.py`).

Modelling conventions:
* Python `str` is modelled as `List Char`; ASCII inputs are assumed for the
  whitespace class.
* Python `int` is modelled as `Int` (or `Nat` where the source only ever
  holds non-negative values); `float` is modelled as `ℚ`.
* Python `while` loops whose progress depends on run-time data are modelled
  with an explicit fuel argument; `none` means the fuel ran out, i.e. the
  loop did not finish within the given number of iterations.
* The tokenizer (tiktoken), the embedding service, the vector store and the
  LLM client are external collaborators; they enter the embedding as
  explicit function/value parameters.
-/

/-- List of characters of a string literal (Python `str` as `List Char`). -/
def chars (s : String) : List Char := s.data

/-- Python regex `\s` / `str.strip` whitespace class, restricted to ASCII:
space, tab, newline, carriage return, vertical tab, form feed. -/
def pyIsSpace (c : Char) : Bool :=
  c = ' ' || c = '\t' || c = '\n' || c = '\r' || c = Char.ofNat 11 || c = Char.ofNat 12

/-- Python `str.strip()`: remove leading and trailing whitespace. -/
def pyStrip (l : List Char) : List Char :=
  ((l.dropWhile pyIsSpace).reverse.dropWhile pyIsSpace).reverse

/-- Normalize one Python slice index against a sequence of length `n`:
negative indices count from the end (clamped at 0), positive ones are
clamped at `n`. -/
def pyIdx (n : Nat) (i : Int) : Nat :=
  if i < 0 then ((n : Int) + i).toNat else min i.toNat n

/-- Python slice `l[a:b]` with full index-normalization semantics. -/
def pySlice {α : Type} (l : List α) (a b : Int) : List α :=
  (l.take (pyIdx l.length b)).drop (pyIdx l.length a)

/-- Python slice `l[-k:]` for a positive `k` (the last `k` elements, the
whole list when `k ≥ len(l)`). -/
def pyTakeLast {α : Type} (k : Nat) (l : List α) : List α :=
  l.drop (l.length - k)

/-- Python slice `l[-k:]` for a non-negative `k`: `-0` is `0`, so `k = 0`
yields the whole list, not the empty one. -/
def pySliceLast {α : Type} (k : Nat) (l : List α) : List α :=
  if k = 0 then l else l.drop (l.length - k)

/-- Whether `p` occurs at the start of `s`. -/
def startsWithSeg : List Char → List Char → Bool
  | [], _ => true
  | _ :: _, [] => false
  | a :: as, b :: bs => a = b && startsWithSeg as bs

/-- Whether `p` occurs as a contiguous segment anywhere inside `s`
(Python `p in s`). -/
def containsSub (p : List Char) : List Char → Bool
  | [] => startsWithSeg p []
  | c :: t => startsWithSeg p (c :: t) || containsSub p t

/-- Index of the first occurrence of `sep` in `text`, if any. -/
def findSepIdx (sep : List Char) : List Char → Option Nat
  | [] => if startsWithSeg sep [] then some 0 else none
  | c :: t =>
    if startsWithSeg sep (c :: t) then some 0
    else (findSepIdx sep t).map (· + 1)

theorem findSepIdx_nil_of_ne (sep : List Char) (h : sep ≠ []) :
    findSepIdx sep [] = none := by
  cases sep with
  | nil => exact absurd rfl h
  | cons a as => simp [findSepIdx, startsWithSeg]

/-- Recursion behind Python `text.split(sep)`: cut at each leftmost,
non-overlapping occurrence of `sep`.  Structural fuel recursion: each cut
consumes at least `len(sep) ≥ 1` characters, so `text.length` fuel always
reaches the no-occurrence base case for a non-empty `sep` (the source never
splits on `""`, which Python rejects). -/
def pySplitAux (sep : List Char) : Nat → List Char → List (List Char)
  | 0, text => [text]
  | fuel + 1, text =>
    match findSepIdx sep text with
    | none => [text]
    | some i => text.take i :: pySplitAux sep fuel (text.drop (i + sep.length))

/-- Python `text.split(sep)` for a non-empty separator `sep`. -/
def pySplit (sep : List Char) (text : List Char) : List (List Char) :=
  pySplitAux sep text.length text

/-- Python `sep.join(parts)`. -/
def sepJoin (sep : List Char) : List (List Char) → List Char
  | [] => []
  | [x] => x
  | x :: xs => x ++ sep ++ sepJoin sep xs

/-- Digit expansion behind `str(n)`: structural recursion on a fuel bound
(any `fuel ≥ n` gives the usual base-10 digits; the fuel-0 base case is
unreachable then since only `n = 0` can exhaust it). -/
def pyNatStrAux : Nat → Nat → List Char
  | 0, n => [Nat.digitChar n]
  | fuel + 1, n =>
    if n < 10 then [Nat.digitChar n]
    else pyNatStrAux fuel (n / 10) ++ [Nat.digitChar (n % 10)]

/-- Python `str(n)` for a natural number. -/
def pyNatStr (n : Nat) : List Char := pyNatStrAux n n

/-- Python `str(n)` for an integer. -/
def pyIntStr (n : Int) : List Char :=
  if n < 0 then '-' :: pyNatStr (-n).toNat else pyNatStr n.toNat

/-- Python truthiness of an `Optional[int]`: `None` and `0` are falsy. -/
def pyTruthy (o : Option Int) : Bool :=
  match o with
  | none => false
  | some n => n != 0

/-- Python `a or b` for an optional string argument `a` with default `b`:
`None` and the empty string are falsy. -/
def pyOrStr (a : Option (List Char)) (b : List Char) : List Char :=
  match a with
  | none => b
  | some s => if s.isEmpty then b else s

/-- Python `a or b` for an optional int argument `a` with default `b`:
`None` and `0` are falsy. -/
def pyOrNat (a : Option Nat) (b : Nat) : Nat :=
  match a with
  | none => b
  | some n => if n = 0 then b else n

/-!
## Chunking engine (`backend/core/chunking.py`)
-/

/-- A tiktoken encoder (external collaborator): `encode` maps text to a token
sequence, `decode` maps it back. -/
structure Tokenizer where
  encode : List Char → List Nat
  decode : List Nat → List Char

/-- `ChunkingStrategy` (chunking.py 24-30). -/
inductive ChunkingStrategy where
  | recursive
  | token_based
  | sentence
  | paragraph
  | fixed_size
deriving DecidableEq

/-- `ChunkMetadata` (chunking.py 33-41). -/
structure ChunkMetadata where
  chunk_index : Nat
  document_id : Option Int := none
  start_char : Option Int := none
  end_char : Option Int := none
  token_count : Option Nat := none
  source_section : Option (List Char) := none
deriving DecidableEq

/-- `TextChunk` (chunking.py 44-48). -/
structure TextChunk where
  text : List Char
  metadata : ChunkMetadata
deriving DecidableEq

/-- The `TextChunker` instance state set up by `TextChunker.__init__`
(chunking.py 76-99): the target chunk size, the overlap, and the tiktoken
encoder (or `none` when loading it failed).  The constructor performs no
validation of `chunk_size` against `chunk_overlap`. -/
structure TextChunker where
  chunk_size : Nat
  chunk_overlap : Nat
  tokenizer : Option Tokenizer

/-- `TextChunker.DEFAULT_SEPARATORS` (chunking.py 64-74). -/
def TextChunker.DEFAULT_SEPARATORS : List (List Char) :=
  [chars "\n\n", chars "\n", chars ". ", chars "! ", chars "? ",
   chars "; ", chars ", ", chars " ", chars ""]

/-- Keep a chunk iff `chunk.strip()` is truthy (the trailing list
comprehension every strategy applies). -/
def keepStripped (c : List Char) : Bool := !(pyStrip c).isEmpty

/-- The `while start < len(text)` loop of `TextChunker._chunk_fixed_size`
(chunking.py 408-418): emit `text[start:end]` with `end = start + chunk_size`
and advance `start = end - chunk_overlap`.  `start` is an `Int`, as in
Python; the `fuel` argument bounds the number of iterations, `none` meaning
the loop did not finish within `fuel` iterations. -/
def fixedSizeLoop (chunk_size chunk_overlap : Nat) (text : List Char) :
    Nat → Int → Option (List (List Char))
  | 0, start =>
    if start < (text.length : Int) then none else some []
  | fuel + 1, start =>
    if start < (text.length : Int) then
      let stop := start + (chunk_size : Int)
      (fixedSizeLoop chunk_size chunk_overlap text fuel (stop - (chunk_overlap : Int))).map
        (fun rest => pySlice text start stop :: rest)
    else some []

/-- `TextChunker._chunk_fixed_size` (chunking.py 398-420): run the sliding
window loop, then drop whitespace-only chunks.  A run of `text.length + 1`
iterations always suffices when `chunk_overlap < chunk_size`; `none` records
that the loop still had not exited (i.e. the source loops forever). -/
def TextChunker.chunk_fixed_size (self : TextChunker) (text : List Char) :
    Option (List (List Char)) :=
  (fixedSizeLoop self.chunk_size self.chunk_overlap text (text.length + 1) 0).map
    (fun cs => cs.filter keepStripped)

/-- Modelled from the spec (claim C8, spec section 4.1 "Fixed-size"): the bare
sliding character window, exactly as the spec words it — `start = 0`; while
`start < len(text)`: emit `text[start : start+chunkSize]`; advance
`start = start + chunkSize - overlap` — with no post-processing. -/
def specFixedWindowLoop (chunkSize overlap : Nat) (text : List Char) :
    Nat → Nat → Option (List (List Char))
  | 0, start =>
    if start < text.length then none else some []
  | fuel + 1, start =>
    if start < text.length then
      (specFixedWindowLoop chunkSize overlap text fuel (start + chunkSize - overlap)).map
        (fun rest => (text.drop start).take chunkSize :: rest)
    else some []

/-- Modelled from the spec (claim C8): the complete fixed-size strategy as the
claim states it, i.e. just the window loop started at `start = 0`. -/
def specFixedWindows (chunkSize overlap : Nat) (text : List Char) :
    Option (List (List Char)) :=
  specFixedWindowLoop chunkSize overlap text (text.length + 1) 0

/-- The packing loop of `split_text` inside `TextChunker._chunk_recursive`
(chunking.py 200-235): walk the splits, greedily pack them into
`cur` (joined by `sep` on flush); when adding the next split would overflow
`chunk_size` and `cur` is non-empty, flush `cur` (appending the separator
back when the current split is not the last one) and seed the next chunk
with the trailing `chunk_overlap` characters of the flushed chunk.
Arguments: remaining splits, `current_chunk`, `current_size`, `result`. -/
def recursivePack (chunk_size chunk_overlap : Nat) (sep : List Char) :
    List (List Char) → List (List Char) → Nat → List (List Char) → List (List Char)
  | [], cur, _, acc =>
    if cur.isEmpty then acc else acc ++ [sepJoin sep cur]
  | p :: ps, cur, curSize, acc =>
    let splitSize := p.length + (if ps.isEmpty then 0 else sep.length)
    if curSize + splitSize > chunk_size ∧ ¬cur.isEmpty then
      let chunkText := sepJoin sep cur ++ (if ps.isEmpty then [] else sep)
      let overlapText :=
        if chunk_overlap > 0 then pyTakeLast chunk_overlap chunkText else []
      let cur2 : List (List Char) := if overlapText.isEmpty then [] else [overlapText]
      recursivePack chunk_size chunk_overlap sep ps (cur2 ++ [p])
        (overlapText.length + splitSize) (acc ++ [chunkText])
    else
      recursivePack chunk_size chunk_overlap sep ps (cur ++ [p])
        (curSize + splitSize) acc

mutual

/-- `split_text` inside `TextChunker._chunk_recursive` (chunking.py 184-245):
texts that already fit are returned whole (dropped when whitespace-only);
once the separator tiers are exhausted, or on the `""` tier, hand off to the
fixed-size strategy; otherwise split on the current tier, pack greedily, and
re-split any oversized chunk with the next tier.  `seps` is the list of
separator tiers still to try. -/
def splitTextAux (chunk_size chunk_overlap : Nat) (tok : Option Tokenizer)
    (seps : List (List Char)) (text : List Char) : Option (List (List Char)) :=
  if text.length ≤ chunk_size then
    some (if (pyStrip text).isEmpty then [] else [text])
  else
    match seps with
    | [] => TextChunker.chunk_fixed_size ⟨chunk_size, chunk_overlap, tok⟩ text
    | sep :: rest =>
      if sep.isEmpty then
        TextChunker.chunk_fixed_size ⟨chunk_size, chunk_overlap, tok⟩ text
      else
        let result := recursivePack chunk_size chunk_overlap sep (pySplit sep text) [] 0 []
        refineChunks chunk_size chunk_overlap tok rest result
termination_by (seps.length, 0)
decreasing_by
  exact Prod.Lex.left _ _ (by simp only [List.length_cons]; omega)

/-- The `final_result` loop of `split_text` (chunking.py 238-243): re-split
every chunk longer than `chunk_size` with the remaining separator tiers,
keep the rest verbatim. -/
def refineChunks (chunk_size chunk_overlap : Nat) (tok : Option Tokenizer)
    (seps : List (List Char)) (cs : List (List Char)) : Option (List (List Char)) :=
  match cs with
  | [] => some []
  | c :: rest =>
    if c.length > chunk_size then
      match splitTextAux chunk_size chunk_overlap tok seps c,
            refineChunks chunk_size chunk_overlap tok seps rest with
      | some a, some b => some (a ++ b)
      | _, _ => none
    else
      (refineChunks chunk_size chunk_overlap tok seps rest).map (fun b => c :: b)
termination_by (seps.length, cs.length + 1)
decreasing_by
  · exact Prod.Lex.right _ (by simp only [List.length_cons]; omega)
  · exact Prod.Lex.right _ (by simp only [List.length_cons]; omega)
  · exact Prod.Lex.right _ (by simp only [List.length_cons]; omega)

end

/-- `TextChunker._chunk_recursive` (chunking.py 166-250): run `split_text`
from the first separator tier, then drop whitespace-only chunks.
`separators` is the optional keyword argument; `None` (and, by Python
truthiness, an empty list) falls back to `DEFAULT_SEPARATORS`. -/
def TextChunker.chunk_recursive (self : TextChunker)
    (separators : Option (List (List Char))) (text : List Char) :
    Option (List (List Char)) :=
  let seps :=
    match separators with
    | none => TextChunker.DEFAULT_SEPARATORS
    | some l => if l.isEmpty then TextChunker.DEFAULT_SEPARATORS else l
  (splitTextAux self.chunk_size self.chunk_overlap self.tokenizer seps text).map
    (fun cs => cs.filter keepStripped)

/-- The `while start < len(tokens)` loop of `TextChunker._chunk_token_based`
(chunking.py 278-291): decode `tokens[start:end]` with
`end = start + max_tokens` and advance `start = end - overlap_tokens`.
Fuel-based; `none` means the loop did not exit within `fuel` iterations. -/
def tokenWindowLoop (max_tokens overlap_tokens : Nat) (decode : List Nat → List Char)
    (tokens : List Nat) : Nat → Int → Option (List (List Char))
  | 0, start =>
    if start < (tokens.length : Int) then none else some []
  | fuel + 1, start =>
    if start < (tokens.length : Int) then
      let stop := start + (max_tokens : Int)
      (tokenWindowLoop max_tokens overlap_tokens decode tokens fuel
          (stop - (overlap_tokens : Int))).map
        (fun rest => decode (pySlice tokens start stop) :: rest)
    else some []

/-- `TextChunker._chunk_token_based` (chunking.py 252-293): without a
tokenizer, fall back to recursive chunking; otherwise slide a token window of
`max_tokens or chunk_size // 4` tokens with `chunk_overlap // 4` token
step-back and drop whitespace-only chunks. -/
def TextChunker.chunk_token_based (self : TextChunker) (max_tokens : Option Nat)
    (text : List Char) : Option (List (List Char)) :=
  match self.tokenizer with
  | none => self.chunk_recursive none text
  | some t =>
    let maxT := pyOrNat max_tokens (self.chunk_size / 4)
    let overlapT := self.chunk_overlap / 4
    let tokens := t.encode text
    (tokenWindowLoop maxT overlapT t.decode tokens (tokens.length + 1) 0).map
      (fun cs => cs.filter keepStripped)

/-- Sentence-ending punctuation, the `[.!?]` class of the sentence pattern. -/
def sentEnder (c : Char) : Bool := c = '.' || c = '!' || c = '?'

/-- The scanner behind `re.split` with pattern `(?<=[.!?])\s+` in
`TextChunker._chunk_by_sentence` (chunking.py 306-307): cut at every maximal
whitespace run that directly follows `.`, `!` or `?`, removing the run.
`cur` holds the current sentence in reverse; the first argument is
structural fuel, one unit per scanned character. -/
def sentSplitGo : Nat → List Char → List Char → List (List Char)
  | _, cur, [] => [cur.reverse]
  | 0, cur, l => [cur.reverse ++ l]
  | fuel + 1, cur, c :: rest =>
    if pyIsSpace c && (match cur with
                       | p :: _ => sentEnder p
                       | [] => false) then
      cur.reverse :: sentSplitGo fuel [] (rest.dropWhile pyIsSpace)
    else
      sentSplitGo fuel (c :: cur) rest

/-- The sentence list of `TextChunker._chunk_by_sentence`.  Each scanner
step consumes at least one character, so `text.length` fuel always reaches
the natural `[]` base case, never the fuel-0 one. -/
def sentSplit (text : List Char) : List (List Char) :=
  sentSplitGo text.length [] text

/-- The backward walk that seeds the next chunk with whole trailing units
(chunking.py 322-330 and 373-381): iterate the closed chunk's units from the
last one, keeping each unit while the kept units' cumulative length stays
within `chunk_overlap`, stopping at the first unit that would overflow.
Arguments: units still to visit (in reverse), units kept, their length. -/
def overlapUnitsGo (chunk_overlap : Nat) :
    List (List Char) → List (List Char) → Nat → List (List Char) × Nat
  | [], acc, n => (acc, n)
  | s :: ss, acc, n =>
    if n + s.length ≤ chunk_overlap then
      overlapUnitsGo chunk_overlap ss (s :: acc) (n + s.length)
    else (acc, n)

/-- Trailing units of `cur` whose cumulative length fits in `chunk_overlap`. -/
def overlapUnits (chunk_overlap : Nat) (cur : List (List Char)) :
    List (List Char) × Nat :=
  overlapUnitsGo chunk_overlap cur.reverse [] 0

/-- The shared accumulation loop of `TextChunker._chunk_by_sentence`
(chunking.py 313-343) and `TextChunker._chunk_by_paragraph` (364-394):
greedily pack units; when the next unit would overflow a non-empty chunk,
flush it (joined with `sep`) and seed the next chunk with trailing whole
units when `chunk_overlap > 0`.  Arguments: remaining units,
`current_chunk`, `current_size`, `chunks`. -/
def accumChunksGo (chunk_size chunk_overlap : Nat) (sep : List Char) :
    List (List Char) → List (List Char) → Nat → List (List Char) → List (List Char)
  | [], cur, _, acc =>
    acc ++ (if cur.isEmpty then [] else [sepJoin sep cur])
  | p :: ps, cur, curSize, acc =>
    if curSize + p.length > chunk_size ∧ ¬cur.isEmpty then
      let flushed := sepJoin sep cur
      let seeded := if chunk_overlap > 0 then overlapUnits chunk_overlap cur else ([], 0)
      accumChunksGo chunk_size chunk_overlap sep ps (seeded.1 ++ [p])
        (seeded.2 + p.length) (acc ++ [flushed])
    else
      accumChunksGo chunk_size chunk_overlap sep ps (cur ++ [p])
        (curSize + p.length) acc

/-- `TextChunker._chunk_by_sentence` (chunking.py 295-345). -/
def TextChunker.chunk_by_sentence (self : TextChunker) (text : List Char) :
    List (List Char) :=
  (accumChunksGo self.chunk_size self.chunk_overlap (chars " ")
      (sentSplit text) [] 0 []).filter keepStripped

/-- `TextChunker._chunk_by_paragraph` (chunking.py 347-396). -/
def TextChunker.chunk_by_paragraph (self : TextChunker) (text : List Char) :
    List (List Char) :=
  (accumChunksGo self.chunk_size self.chunk_overlap (chars "\n\n")
      (pySplit (chars "\n\n") text) [] 0 []).filter keepStripped

/-- `TextChunker.chunk_text` (chunking.py 106-164): empty/whitespace-only
text yields no chunks; otherwise dispatch on the strategy and wrap every
chunk with its metadata (0-based `chunk_index`, the `document_id`, and a
token count when the tokenizer is available). -/
def TextChunker.chunk_text (self : TextChunker) (strategy : ChunkingStrategy)
    (document_id : Option Int) (text : List Char) : Option (List TextChunk) :=
  if (pyStrip text).isEmpty then some []
  else
    let chunksQ : Option (List (List Char)) :=
      match strategy with
      | .recursive => self.chunk_recursive none text
      | .token_based => self.chunk_token_based none text
      | .sentence => some (self.chunk_by_sentence text)
      | .paragraph => some (self.chunk_by_paragraph text)
      | .fixed_size => self.chunk_fixed_size text
    chunksQ.map (fun cs =>
      cs.enum.map (fun ic =>
        { text := ic.2,
          metadata :=
            { chunk_index := ic.1,
              document_id := document_id,
              token_count := self.tokenizer.map (fun t => (t.encode ic.2).length) } }))

/-- Texts of the produced chunks, for stating chunk-count/content claims. -/
def chunkTexts (o : Option (List TextChunk)) : Option (List (List Char)) :=
  o.map (fun cs => cs.map TextChunk.text)

/-!
## RAG pipeline (`backend/core/rag_pipeline.py`)
-/

/-- The metadata keys a retrieved chunk carries that the pipeline reads
(`metadata.get('document_id')`, `metadata.get('chunk_index')`); other keys
never influence the modelled behavior. -/
structure Metadata where
  document_id : Option Int := none
  chunk_index : Option Int := none
deriving DecidableEq

/-- `RetrievedDocument` (rag_pipeline.py 29-62). -/
structure RetrievedDocument where
  id : List Char
  content : List Char
  metadata : Metadata
  distance : ℚ
deriving DecidableEq

/-- `RetrievedDocument.score` (rag_pipeline.py 46-52):
`max(0.0, min(1.0, 1.0 - distance))`. -/
def RetrievedDocument.score (d : RetrievedDocument) : ℚ :=
  max 0 (min 1 (1 - d.distance))

/-- `RetrievedDocument.document_id` (rag_pipeline.py 54-57). -/
def RetrievedDocument.document_id (d : RetrievedDocument) : Option Int :=
  d.metadata.document_id

/-- `RetrievedDocument.chunk_index` (rag_pipeline.py 59-62). -/
def RetrievedDocument.chunk_index (d : RetrievedDocument) : Option Int :=
  d.metadata.chunk_index

/-- One row of the vector collaborator's response, as consumed by the
`zip(results['ids'], results['documents'], results['metadatas'],
results['distances'])` loop (rag_pipeline.py 206-211): ChromaDB returns
four equal-length parallel arrays, modelled row-wise.  `metadata` may be
`None` (`metadata or {}` in the source). -/
structure SearchRow where
  id : List Char
  document : List Char
  metadata : Option Metadata
  distance : ℚ
deriving DecidableEq

/-- The `RetrievedDocument(...)` built from one search row
(rag_pipeline.py 212-217). -/
def SearchRow.toDoc (r : SearchRow) : RetrievedDocument :=
  { id := r.id, content := r.document,
    metadata := r.metadata.getD {}, distance := r.distance }

/-- The pure core of `RAGPipeline.retrieve_context` (rag_pipeline.py
204-237): parse the collaborator's ranked rows in order and keep exactly
those whose `score` is at least `min_relevance_score`.  The embedding call
and the vector search (rag_pipeline.py 194-202) are the collaborators that
produced `rows`; their failure path is the `RAGError` wrap (239-241),
handled at the orchestrator level. -/
def RAGPipeline.retrieve_context (min_relevance_score : ℚ)
    (rows : List SearchRow) : List RetrievedDocument :=
  (rows.map SearchRow.toDoc).filter (fun d => min_relevance_score ≤ d.score)

/-- The `[Source i, ...]` attribution header built for document `i`
(1-based) in `RAGPipeline.build_context_prompt` (rag_pipeline.py 264-271):
the `Document ID` segment is guarded by Python truthiness of
`doc.document_id`, the `Chunk` segment by `doc.chunk_index is not None`.
`fmt` renders `{doc.score:.2f}`; it is kept abstract (the collaborating
float formatter). -/
def RAGPipeline.source_info (fmt : ℚ → List Char) (i : Nat)
    (doc : RetrievedDocument) : List Char :=
  chars "[Source " ++ pyNatStr i
    ++ (if pyTruthy doc.document_id then
          chars ", Document ID: " ++ pyIntStr (doc.document_id.getD 0)
        else [])
    ++ (if doc.chunk_index.isSome then
          chars ", Chunk: " ++ pyIntStr (doc.chunk_index.getD 0)
        else [])
    ++ chars ", Relevance: " ++ fmt doc.score ++ chars "]"

/-- `RAGPipeline.build_context_prompt` (rag_pipeline.py 243-285): with no
documents return the query unchanged; otherwise render each document as its
source header plus content, join the blocks, and fill the
`CONTEXT_PROMPT_TEMPLATE`. -/
def RAGPipeline.build_context_prompt (fmt : ℚ → List Char) (query : List Char)
    (documents : List RetrievedDocument) : List Char :=
  if documents.isEmpty then query
  else
    let context_parts := (documents.enumFrom 1).map
      (fun idoc => RAGPipeline.source_info fmt idoc.1 idoc.2
        ++ chars "\n" ++ idoc.2.content ++ chars "\n")
    let context_text := sepJoin (chars "\n---\n\n") context_parts
    chars "Context documents:\n\n" ++ context_text
      ++ chars "\n\n---\n\nQuestion: " ++ query
      ++ chars "\n\nPlease answer the question based on the context provided above. If you reference specific information, indicate which part of the context it comes from."

/-- One chat message dict `{'role': ..., 'content': ...}` (spec: ChatTurn). -/
structure ChatTurn where
  role : List Char
  content : List Char
deriving DecidableEq

/-- `RAGPipeline.DEFAULT_SYSTEM_PROMPT` (rag_pipeline.py 111-120); the
apostrophe is spelled via its code point. -/
def RAGPipeline.DEFAULT_SYSTEM_PROMPT : List Char :=
  chars "You are a helpful AI assistant that answers questions based on the provided context.\n\nYour responsibilities:\n- Answer questions accurately using ONLY the information from the provided context\n- If the context doesn"
    ++ [Char.ofNat 39]
    ++ chars "t contain enough information to answer, say so honestly\n- Cite specific parts of the context when making claims\n- Be concise but thorough\n- If asked about something not in the context, clearly state that\n\nRemember: Base your answers ONLY on the provided context documents."

/-- `RAGPipeline.build_chat_messages` (rag_pipeline.py 287-328): one system
turn, then (when the history is non-empty) the history truncated to its last
`max_history` entries when it is longer than that — via the Python slice
`chat_history[-max_history:]` — and finally one user turn carrying the
context prompt. -/
def RAGPipeline.build_chat_messages (system_prompt : List Char)
    (fmt : ℚ → List Char) (query : List Char)
    (documents : List RetrievedDocument) (chat_history : List ChatTurn)
    (max_history : Nat) : List ChatTurn :=
  let messages : List ChatTurn := [⟨chars "system", system_prompt⟩]
  let messages := messages ++
    (if chat_history.isEmpty then []
     else if chat_history.length > max_history then pySliceLast max_history chat_history
     else chat_history)
  messages ++ [⟨chars "user", RAGPipeline.build_context_prompt fmt query documents⟩]

/-- The per-document dict of the `Sources` stream event
(rag_pipeline.py 453-461). -/
structure SourceItem where
  id : List Char
  content : List Char
  metadata : Metadata
  score : ℚ
deriving DecidableEq

/-- Projection of a retrieved document to its `Sources`-event dict. -/
def RetrievedDocument.toSourceItem (d : RetrievedDocument) : SourceItem :=
  ⟨d.id, d.content, d.metadata, d.score⟩

/-- The stream events yielded by `RAGPipeline.generate_answer_stream`
(rag_pipeline.py 420-423 and 451-502). -/
inductive StreamEvent where
  | sources (data : List SourceItem)
  | token (data : List Char)
  | done (model : List Char) (sources_count : Nat)
  | error (data : List Char)
deriving DecidableEq

def StreamEvent.isSources : StreamEvent → Bool
  | .sources _ => true
  | _ => false

def StreamEvent.isToken : StreamEvent → Bool
  | .token _ => true
  | _ => false

def StreamEvent.isDone : StreamEvent → Bool
  | .done _ _ => true
  | _ => false

def StreamEvent.isError : StreamEvent → Bool
  | .error _ => true
  | _ => false

/-- `RAGPipeline.generate_answer_stream` (rag_pipeline.py 407-503), as a
function of the collaborators' behavior for this call:

* `retrieval` — outcome of `retrieve_context` (440-448): either the
  retrieved documents or the message of the raised exception;
* `deltas` — the text chunks `llm_client.chat_stream` yields before it
  either completes or raises (474-483);
* `stream_failure` — `some msg` when the stream raises after its deltas,
  `none` when it completes;
* `model`/`default_model` — the `model` argument and
  `llm_client.default_model` (472).

Returns the list of yielded events, paired with `some msg` when the
generator body ends by raising `RAGError(msg)` (503) — in Python that
exception surfaces to a consumer that keeps iterating the async generator
past the last yielded event — or `none` when the generator completes.
The intervening `build_chat_messages` call (465-469) is pure and cannot
fail, so the `except` branch (496-503) is reachable exactly from the two
collaborator failure points. -/
def RAGPipeline.generate_answer_stream
    (retrieval : Except (List Char) (List RetrievedDocument))
    (deltas : List (List Char)) (stream_failure : Option (List Char))
    (model : Option (List Char)) (default_model : List Char) :
    List StreamEvent × Option (List Char) :=
  match retrieval with
  | .error e =>
    ([.error e], some (chars "Streaming RAG generation failed: " ++ e))
  | .ok documents =>
    let model_name := pyOrStr model default_model
    let evs := StreamEvent.sources (documents.map RetrievedDocument.toSourceItem)
      :: deltas.map StreamEvent.token
    match stream_failure with
    | some e =>
      (evs ++ [.error e], some (chars "Streaming RAG generation failed: " ++ e))
    | none =>
      (evs ++ [.done model_name documents.length], none)

/-!
## Helper lemmas
-/

theorem startsWithSeg_self_append (p t : List Char) :
    startsWithSeg p (p ++ t) = true := by
  induction p with
  | nil => rfl
  | cons a as ih => simp [startsWithSeg, ih]

theorem containsSub_of_starts (p s : List Char) (h : startsWithSeg p s = true) :
    containsSub p s = true := by
  cases s <;> simp [containsSub, h]

theorem containsSub_append_left (x p t : List Char)
    (h : containsSub p t = true) : containsSub p (x ++ t) = true := by
  induction x with
  | nil => simpa using h
  | cons c cs ih => simp [containsSub, ih]

theorem mem_of_containsSub (c : Char) (p s : List Char)
    (h : containsSub (c :: p) s = true) : c ∈ s := by
  induction s with
  | nil => simp [containsSub, startsWithSeg] at h
  | cons x t ih =>
    simp only [containsSub, Bool.or_eq_true] at h
    rcases h with h | h
    · simp only [startsWithSeg, Bool.and_eq_true, decide_eq_true_eq] at h
      rw [h.1]
      exact List.mem_cons_self x t
    · exact List.mem_cons_of_mem _ (ih h)

theorem digitChar_isDigit (d : Nat) (hd : d < 10) :
    (Nat.digitChar d).isDigit = true := by
  interval_cases d <;> decide

theorem pyNatStrAux_digits (fuel : Nat) :
    ∀ n, n ≤ fuel → ∀ c ∈ pyNatStrAux fuel n, c.isDigit = true := by
  induction fuel with
  | zero =>
    intro n hn c hc
    have : n = 0 := by omega
    subst this
    simp only [pyNatStrAux, List.mem_singleton] at hc
    exact hc ▸ digitChar_isDigit 0 (by omega)
  | succ fuel ih =>
    intro n hn c hc
    simp only [pyNatStrAux] at hc
    by_cases h : n < 10
    · simp only [if_pos h, List.mem_singleton] at hc
      exact hc ▸ digitChar_isDigit n h
    · simp only [if_neg h, List.mem_append, List.mem_singleton] at hc
      rcases hc with hc | hc
      · exact ih (n / 10) (by omega) c hc
      · exact hc ▸ digitChar_isDigit (n % 10) (Nat.mod_lt _ (by omega))

theorem pyNatStr_digits (n : Nat) : ∀ c ∈ pyNatStr n, c.isDigit = true :=
  pyNatStrAux_digits n n le_rfl

theorem pyIntStr_chars (n : Int) :
    ∀ c ∈ pyIntStr n, c.isDigit = true ∨ c = '-' := by
  intro c hc
  unfold pyIntStr at hc
  by_cases h : n < 0
  · simp only [if_pos h, List.mem_cons] at hc
    rcases hc with hc | hc
    · exact Or.inr hc
    · exact Or.inl (pyNatStr_digits _ c hc)
  · simp only [if_neg h] at hc
    exact Or.inl (pyNatStr_digits _ c hc)

/-!
## Claim C6
-/

/-- C6: for every `RetrievedDocument`, `score = clamp(1 - distance, 0, 1)`;
consequently `score ∈ [0, 1]` for every distance, and the distance-to-score
mapping is monotonically non-increasing (`d1 < d2` implies
`score(d1) ≥ score(d2)`). -/
theorem C6_score_clamp_bounds_antitone :
    ∀ d : RetrievedDocument,
      d.score = max 0 (min 1 (1 - d.distance)) ∧
      0 ≤ d.score ∧ d.score ≤ 1 ∧
      ∀ d2 : RetrievedDocument, d.distance < d2.distance → d2.score ≤ d.score := by
  intro d
  refine ⟨rfl, le_max_left _ _, max_le (by norm_num) (min_le_left _ _), ?_⟩
  intro d2 h
  unfold RetrievedDocument.score
  exact max_le_max le_rfl (min_le_min le_rfl (by linarith))

/-- Witness for C6 at the spec's example distances `0.1 < 0.3`. -/
theorem C6_witness :
    (RetrievedDocument.mk (chars "a") (chars "ca") {} (1/10)).score = 9/10 ∧
    0 ≤ (RetrievedDocument.mk (chars "a") (chars "ca") {} (1/10)).score ∧
    (RetrievedDocument.mk (chars "a") (chars "ca") {} (1/10)).score ≤ 1 ∧
    (RetrievedDocument.mk (chars "b") (chars "cb") {} (3/10)).score
      ≤ (RetrievedDocument.mk (chars "a") (chars "ca") {} (1/10)).score := by
  have h := C6_score_clamp_bounds_antitone
    (RetrievedDocument.mk (chars "a") (chars "ca") {} (1/10))
  exact ⟨by norm_num [RetrievedDocument.score],
         h.2.1, h.2.2.1,
         h.2.2.2 (RetrievedDocument.mk (chars "b") (chars "cb") {} (3/10)) (by norm_num)⟩

/-!
## Claim C5
-/

/-- The spec's worked example: three ranked rows with distances
`[0.1, 0.3, 0.9]`. -/
def exampleRows : List SearchRow :=
  [⟨chars "id1", chars "c1", some {}, 1/10⟩,
   ⟨chars "id2", chars "c2", some {}, 3/10⟩,
   ⟨chars "id3", chars "c3", some {}, 9/10⟩]

/-- C5: `retrieve_context` keeps the collaborator's ranked matches in their
original order (a sublist), removes exactly the entries whose score is below
`min_relevance_score`, returns an empty list (not an error) when everything
is filtered out, and on the worked example (distances `[0.1, 0.3, 0.9]`,
threshold `0.3`) returns exactly the first two documents with scores
`0.9` and `0.7`. -/
theorem C5_retrieve_context_filter :
    ∀ (min_relevance_score : ℚ) (rows : List SearchRow),
      (RAGPipeline.retrieve_context min_relevance_score rows).Sublist
          (rows.map SearchRow.toDoc) ∧
      (∀ d, d ∈ RAGPipeline.retrieve_context min_relevance_score rows ↔
          (d ∈ rows.map SearchRow.toDoc ∧ ¬ d.score < min_relevance_score)) ∧
      ((∀ r ∈ rows, (SearchRow.toDoc r).score < min_relevance_score) →
          RAGPipeline.retrieve_context min_relevance_score rows = []) ∧
      RAGPipeline.retrieve_context (3/10) exampleRows
        = [SearchRow.toDoc ⟨chars "id1", chars "c1", some {}, 1/10⟩,
           SearchRow.toDoc ⟨chars "id2", chars "c2", some {}, 3/10⟩] ∧
      (RAGPipeline.retrieve_context (3/10) exampleRows).map RetrievedDocument.score
        = [9/10, 7/10] := by
  intro ms rows
  have hs1 : (SearchRow.toDoc ⟨chars "id1", chars "c1", some {}, 1/10⟩).score = 9/10 := by
    norm_num [SearchRow.toDoc, RetrievedDocument.score]
  have hs2 : (SearchRow.toDoc ⟨chars "id2", chars "c2", some {}, 3/10⟩).score = 7/10 := by
    norm_num [SearchRow.toDoc, RetrievedDocument.score]
  have hs3 : (SearchRow.toDoc ⟨chars "id3", chars "c3", some {}, 9/10⟩).score = 1/10 := by
    norm_num [SearchRow.toDoc, RetrievedDocument.score]
  have hres : RAGPipeline.retrieve_context (3/10) exampleRows
      = [SearchRow.toDoc ⟨chars "id1", chars "c1", some {}, 1/10⟩,
         SearchRow.toDoc ⟨chars "id2", chars "c2", some {}, 3/10⟩] := by
    norm_num [RAGPipeline.retrieve_context, exampleRows, List.filter_cons, hs1, hs2, hs3]
  refine ⟨List.filter_sublist _, ?_, ?_, hres, by rw [hres]; norm_num [hs1, hs2]⟩
  · intro d
    rw [RAGPipeline.retrieve_context, List.mem_filter]
    simp [not_lt]
  · intro h
    rw [RAGPipeline.retrieve_context, List.filter_eq_nil_iff]
    intro d hd
    rw [List.mem_map] at hd
    obtain ⟨r, hr, rfl⟩ := hd
    simpa [not_le] using h r hr

/-- Witness for C5: the worked example, plus the empty result on a list
whose only row scores below the threshold. -/
theorem C5_witness :
    (RAGPipeline.retrieve_context (3/10) exampleRows).Sublist
        (exampleRows.map SearchRow.toDoc) ∧
    RAGPipeline.retrieve_context (3/10) exampleRows
      = [SearchRow.toDoc ⟨chars "id1", chars "c1", some {}, 1/10⟩,
         SearchRow.toDoc ⟨chars "id2", chars "c2", some {}, 3/10⟩] ∧
    RAGPipeline.retrieve_context (3/10) [⟨chars "id4", chars "c4", none, 2⟩] = [] := by
  refine ⟨(C5_retrieve_context_filter (3/10) exampleRows).1,
          (C5_retrieve_context_filter (3/10) exampleRows).2.2.2.1,
          (C5_retrieve_context_filter (3/10) [⟨chars "id4", chars "c4", none, 2⟩]).2.2.1 ?_⟩
  intro r hr
  rw [List.mem_singleton] at hr
  subst hr
  norm_num [SearchRow.toDoc, RetrievedDocument.score]

/-!
## Claim C9
-/

/-- A trivial score formatter, used to instantiate the abstract
`{score:.2f}` collaborator in concrete examples. -/
def fmt0 : ℚ → List Char := fun _ => []

/-- Counterexample to C9 as stated: with `maxHistory = 0` and one prior
turn, Python evaluates `chat_history[-0:]` to the whole history, so the
prior turn is included and three messages come back, not the two
(`[system, user]`) the claim's "last maxHistory entries" reading demands. -/
theorem C9_counterexample :
    RAGPipeline.build_chat_messages (chars "S") fmt0 (chars "q") []
        [⟨chars "user", chars "hi"⟩] 0
      = [⟨chars "system", chars "S"⟩, ⟨chars "user", chars "hi"⟩,
         ⟨chars "user", chars "q"⟩] ∧
    RAGPipeline.build_chat_messages (chars "S") fmt0 (chars "q") []
        [⟨chars "user", chars "hi"⟩] 0
      ≠ [⟨chars "system", chars "S"⟩, ⟨chars "user", chars "q"⟩] := by
  constructor <;> decide

/-- C9 (amended: `maxHistory ≥ 1`): `build_chat_messages` returns, in
order, one system turn, the last `maxHistory` entries of the history
verbatim in their original order (all of it when shorter), then one user
turn whose content is `build_context_prompt(query, documents)`. -/
theorem C9_build_chat_messages :
    ∀ (system_prompt : List Char) (fmt : ℚ → List Char) (query : List Char)
      (documents : List RetrievedDocument) (chat_history : List ChatTurn)
      (max_history : Nat), 1 ≤ max_history →
      RAGPipeline.build_chat_messages system_prompt fmt query documents
          chat_history max_history
        = ⟨chars "system", system_prompt⟩
            :: (chat_history.drop (chat_history.length - max_history)
                ++ [⟨chars "user",
                     RAGPipeline.build_context_prompt fmt query documents⟩]) := by
  intro sp fmt query documents ch mh hmh
  unfold RAGPipeline.build_chat_messages
  by_cases hemp : ch.isEmpty
  · rw [List.isEmpty_iff] at hemp
    subst hemp
    simp
  · rw [Bool.not_eq_true] at hemp
    by_cases hlen : ch.length > mh
    · have hmz : mh ≠ 0 := by omega
      simp [hemp, hlen, pySliceLast, hmz]
    · have h0 : ch.length - mh = 0 := by omega
      simp [hemp, hlen, h0]

/-- Witness for C9: seven prior turns and `maxHistory = 3` produce exactly
`[system, turn5, turn6, turn7, user]`. -/
theorem C9_witness :
    (1 : Nat) ≤ 3 ∧
    RAGPipeline.build_chat_messages (chars "S") fmt0 (chars "q") []
        [⟨chars "user", chars "t1"⟩, ⟨chars "assistant", chars "t2"⟩,
         ⟨chars "user", chars "t3"⟩, ⟨chars "assistant", chars "t4"⟩,
         ⟨chars "user", chars "t5"⟩, ⟨chars "assistant", chars "t6"⟩,
         ⟨chars "user", chars "t7"⟩] 3
      = [⟨chars "system", chars "S"⟩,
         ⟨chars "user", chars "t5"⟩, ⟨chars "assistant", chars "t6"⟩,
         ⟨chars "user", chars "t7"⟩, ⟨chars "user", chars "q"⟩] := by
  refine ⟨by decide, ?_⟩
  rw [C9_build_chat_messages (chars "S") fmt0 (chars "q") [] _ 3 (by decide)]
  decide

/-!
## Claims C1 and C2
-/

theorem countP_token_map (p : StreamEvent → Bool)
    (h : ∀ s, p (StreamEvent.token s) = false) (ds : List (List Char)) :
    (ds.map StreamEvent.token).countP p = 0 := by
  induction ds with
  | nil => rfl
  | cons d ds ih => simp [List.countP_cons, h, ih]

/-- C1: every successful streaming call yields exactly one leading `Sources`
event, then one `Token` event per delta in order, then exactly one `Done`
event carrying the model name and the retrieved-source count, and no
`Error`; every failing call yields a sequence ending in exactly one `Error`
event, with no `Done` and nothing after the `Error`. -/
theorem C1_stream_event_order :
    (∀ (documents : List RetrievedDocument) (deltas : List (List Char))
       (model : Option (List Char)) (default_model : List Char),
      (RAGPipeline.generate_answer_stream (.ok documents) deltas none model default_model).1
          = StreamEvent.sources (documents.map RetrievedDocument.toSourceItem)
            :: (deltas.map StreamEvent.token
                ++ [StreamEvent.done (pyOrStr model default_model) documents.length])
        ∧ (RAGPipeline.generate_answer_stream (.ok documents) deltas none model default_model).1.countP
            StreamEvent.isSources = 1
        ∧ (RAGPipeline.generate_answer_stream (.ok documents) deltas none model default_model).1.countP
            StreamEvent.isDone = 1
        ∧ (RAGPipeline.generate_answer_stream (.ok documents) deltas none model default_model).1.countP
            StreamEvent.isError = 0) ∧
    (∀ (retrieval : Except (List Char) (List RetrievedDocument))
       (deltas : List (List Char)) (stream_failure : Option (List Char))
       (model : Option (List Char)) (default_model : List Char),
      (∀ documents, retrieval = .ok documents → stream_failure ≠ none) →
      (RAGPipeline.generate_answer_stream retrieval deltas stream_failure model default_model).1.countP
          StreamEvent.isError = 1
        ∧ (RAGPipeline.generate_answer_stream retrieval deltas stream_failure model default_model).1.countP
            StreamEvent.isDone = 0
        ∧ ∃ m, (RAGPipeline.generate_answer_stream retrieval deltas stream_failure model default_model).1.getLast?
            = some (.error m)) := by
  constructor
  · intro documents deltas model default_model
    refine ⟨rfl, ?_, ?_, ?_⟩ <;>
      simp [RAGPipeline.generate_answer_stream, List.countP_cons, List.countP_append,
            countP_token_map, StreamEvent.isSources, StreamEvent.isDone, StreamEvent.isError]
  · intro retrieval deltas stream_failure model default_model hfail
    cases retrieval with
    | error e =>
      refine ⟨?_, ?_, ⟨e, ?_⟩⟩ <;>
        simp [RAGPipeline.generate_answer_stream, List.countP_cons,
              StreamEvent.isDone, StreamEvent.isError]
    | ok documents =>
      cases stream_failure with
      | none => exact absurd rfl (hfail documents rfl)
      | some e =>
        refine ⟨?_, ?_, ⟨e, ?_⟩⟩
        · simp [RAGPipeline.generate_answer_stream, List.countP_cons, List.countP_append,
                countP_token_map, StreamEvent.isError]
        · simp [RAGPipeline.generate_answer_stream, List.countP_cons, List.countP_append,
                countP_token_map, StreamEvent.isDone]
        · show (StreamEvent.sources _ :: (deltas.map StreamEvent.token ++ [.error e])).getLast?
            = some (.error e)
          rw [← List.cons_append, List.getLast?_concat]

/-- Witness for C1: one successful call with a single delta and one failing
call with a retrieval error. -/
theorem C1_witness :
    (RAGPipeline.generate_answer_stream (.ok []) [chars "a"] none none (chars "mistral")).1
      = [StreamEvent.sources [], StreamEvent.token (chars "a"),
         StreamEvent.done (chars "mistral") 0] ∧
    (RAGPipeline.generate_answer_stream (.error (chars "boom")) [] none none (chars "mistral")).1.countP
        StreamEvent.isError = 1 := by
  constructor
  · exact (C1_stream_event_order.1 [] [chars "a"] none (chars "mistral")).1
  · exact (C1_stream_event_order.2 (.error (chars "boom")) [] none none (chars "mistral")
      (fun documents h => Except.noConfusion h)).1

/-- Counterexample to C2 as stated: a failing call does not deliver the
failure solely as an `Error` event — the generator body ends in
`raise RAGError(...)` (rag_pipeline.py 503), modelled by the second
component, so an exception does cross the stream boundary to a caller that
keeps iterating. -/
theorem C2_counterexample :
    (RAGPipeline.generate_answer_stream (.error (chars "boom")) [] none none (chars "m")).2
      = some (chars "Streaming RAG generation failed: boom") ∧
    (RAGPipeline.generate_answer_stream (.error (chars "boom")) [] none none (chars "m")).2
      ≠ none := by
  constructor <;> decide

/-- C2 (amended): a retrieval or generation failure is delivered as a single
terminal `Error` stream event, after which the generator additionally raises
`RAGError("Streaming RAG generation failed: ...")`, which propagates to a
consumer that continues iterating past the `Error` event. -/
theorem C2_error_event_then_raise :
    ∀ (retrieval : Except (List Char) (List RetrievedDocument))
      (deltas : List (List Char)) (stream_failure : Option (List Char))
      (model : Option (List Char)) (default_model : List Char),
      (∀ documents, retrieval = .ok documents → stream_failure ≠ none) →
      (RAGPipeline.generate_answer_stream retrieval deltas stream_failure model default_model).1.countP
          StreamEvent.isError = 1
        ∧ ∃ m,
          (RAGPipeline.generate_answer_stream retrieval deltas stream_failure model default_model).1.getLast?
              = some (.error m)
          ∧ (RAGPipeline.generate_answer_stream retrieval deltas stream_failure model default_model).2
              = some (chars "Streaming RAG generation failed: " ++ m) := by
  intro retrieval deltas stream_failure model default_model hfail
  cases retrieval with
  | error e =>
    refine ⟨?_, ⟨e, ?_, rfl⟩⟩ <;>
      simp [RAGPipeline.generate_answer_stream, List.countP_cons, StreamEvent.isError]
  | ok documents =>
    cases stream_failure with
    | none => exact absurd rfl (hfail documents rfl)
    | some e =>
      refine ⟨?_, ⟨e, ?_, rfl⟩⟩
      · simp [RAGPipeline.generate_answer_stream, List.countP_cons, List.countP_append,
              countP_token_map, StreamEvent.isError]
      · show (StreamEvent.sources _ :: (deltas.map StreamEvent.token ++ [.error e])).getLast?
          = some (.error e)
        rw [← List.cons_append, List.getLast?_concat]

/-- Witness for C2 (amended) at a concrete failing retrieval. -/
theorem C2_witness :
    (RAGPipeline.generate_answer_stream (.error (chars "em")) [] none none (chars "m")).1.countP
        StreamEvent.isError = 1 ∧
    (RAGPipeline.generate_answer_stream (.error (chars "em")) [] none none (chars "m")).2
      = some (chars "Streaming RAG generation failed: em") := by
  obtain ⟨h1, m, hm, hraise⟩ := C2_error_event_then_raise (.error (chars "em")) [] none none
    (chars "m") (fun documents h => Except.noConfusion h)
  refine ⟨h1, ?_⟩
  have : m = chars "em" := by
    have := hm
    simp [RAGPipeline.generate_answer_stream] at this
    exact this.symm
  rw [hraise, this]
  rfl

/-!
## Claim C10
-/

theorem source_info_no_D (fmt : ℚ → List Char)
    (hfmt : ∀ q : ℚ, ∀ c ∈ fmt q, c.isDigit = true ∨ c = '.')
    (i : Nat) (doc : RetrievedDocument)
    (h : pyTruthy doc.document_id = false) :
    'D' ∉ RAGPipeline.source_info fmt i doc := by
  intro hmem
  unfold RAGPipeline.source_info at hmem
  by_cases hci : doc.chunk_index.isSome
  · simp only [h, hci, Bool.false_eq_true, if_false, if_true, List.append_nil,
      List.nil_append, List.mem_append] at hmem
    rcases hmem with ((((hm | hm) | (hm | hm)) | hm) | hm) | hm
    · exact absurd hm (by decide)
    · exact absurd (pyNatStr_digits i 'D' hm) (by decide)
    · exact absurd hm (by decide)
    · rcases pyIntStr_chars _ 'D' hm with hd | hd
      · exact absurd hd (by decide)
      · exact absurd hd (by decide)
    · exact absurd hm (by decide)
    · rcases hfmt _ 'D' hm with hd | hd
      · exact absurd hd (by decide)
      · exact absurd hd (by decide)
    · exact absurd hm (by decide)
  · simp only [h, hci, Bool.false_eq_true, if_false, List.append_nil,
      List.nil_append, List.mem_append] at hmem
    rcases hmem with (((hm | hm) | hm) | hm) | hm
    · exact absurd hm (by decide)
    · exact absurd (pyNatStr_digits i 'D' hm) (by decide)
    · exact absurd hm (by decide)
    · rcases hfmt _ 'D' hm with hd | hd
      · exact absurd hd (by decide)
      · exact absurd hd (by decide)
    · exact absurd hm (by decide)

theorem contains_docid_of_truthy (fmt : ℚ → List Char) (i : Nat)
    (doc : RetrievedDocument) (h : pyTruthy doc.document_id = true) :
    containsSub (chars "Document ID") (RAGPipeline.source_info fmt i doc) = true := by
  unfold RAGPipeline.source_info
  rw [show chars ", Document ID: " = chars ", " ++ (chars "Document ID" ++ chars ": ") from rfl]
  simp only [h, if_true, List.append_assoc]
  apply containsSub_append_left
  apply containsSub_append_left
  apply containsSub_append_left
  exact containsSub_of_starts _ _ (startsWithSeg_self_append _ _)

/-- C10: in `build_context_prompt`'s source header, the `Document ID`
segment appears exactly when the metadata's `document_id` is Python-truthy
(so `document_id = 0` renders with no `Document ID` label), while the
`Chunk` segment appears whenever `chunk_index` is not `None`, so
`chunk_index = 0` renders as `Chunk: 0`.  `fmt` is the relevance formatter,
whose output is digits and dots. -/
theorem C10_source_info_conditional_segments :
    ∀ (fmt : ℚ → List Char),
      (∀ q : ℚ, ∀ c ∈ fmt q, c.isDigit = true ∨ c = '.') →
      ∀ (i : Nat) (doc : RetrievedDocument),
        (containsSub (chars "Document ID") (RAGPipeline.source_info fmt i doc) = true
           ↔ pyTruthy doc.document_id = true)
        ∧ (doc.chunk_index.isSome = true →
            containsSub (chars ", Chunk: ") (RAGPipeline.source_info fmt i doc) = true)
        ∧ (doc.chunk_index = some 0 →
            containsSub (chars "Chunk: 0") (RAGPipeline.source_info fmt i doc) = true)
        ∧ (doc.document_id = some 0 →
            containsSub (chars "Document ID") (RAGPipeline.source_info fmt i doc) = false) := by
  intro fmt hfmt i doc
  have hfwd : containsSub (chars "Document ID") (RAGPipeline.source_info fmt i doc) = true
      → pyTruthy doc.document_id = true := by
    intro h
    by_contra hnt
    rw [Bool.not_eq_true] at hnt
    exact source_info_no_D fmt hfmt i doc hnt
      (mem_of_containsSub 'D' (chars "ocument ID") _ h)
  refine ⟨⟨hfwd, contains_docid_of_truthy fmt i doc⟩, ?_, ?_, ?_⟩
  · intro hci
    unfold RAGPipeline.source_info
    by_cases ht : pyTruthy doc.document_id
    · simp only [ht, hci, if_true, List.append_assoc]
      apply containsSub_append_left
      apply containsSub_append_left
      apply containsSub_append_left
      apply containsSub_append_left
      exact containsSub_of_starts _ _ (startsWithSeg_self_append _ _)
    · rw [Bool.not_eq_true] at ht
      simp only [ht, hci, Bool.false_eq_true, if_false, if_true, List.nil_append,
        List.append_assoc]
      apply containsSub_append_left
      apply containsSub_append_left
      exact containsSub_of_starts _ _ (startsWithSeg_self_append _ _)
  · intro hc0
    unfold RAGPipeline.source_info
    have hci : doc.chunk_index.isSome = true := by rw [hc0]; rfl
    have hval : pyIntStr (doc.chunk_index.getD 0) = ['0'] := by rw [hc0]; decide
    by_cases ht : pyTruthy doc.document_id
    · simp only [ht, hci, if_true, hval, List.append_assoc]
      rw [show ∀ r : List Char, chars ", Chunk: " ++ (['0'] ++ r)
            = chars ", " ++ (chars "Chunk: 0" ++ r) from fun r => rfl]
      apply containsSub_append_left
      apply containsSub_append_left
      apply containsSub_append_left
      apply containsSub_append_left
      apply containsSub_append_left
      exact containsSub_of_starts _ _ (startsWithSeg_self_append _ _)
    · rw [Bool.not_eq_true] at ht
      simp only [ht, hci, Bool.false_eq_true, if_false, if_true, List.nil_append,
        hval, List.append_assoc]
      rw [show ∀ r : List Char, chars ", Chunk: " ++ (['0'] ++ r)
            = chars ", " ++ (chars "Chunk: 0" ++ r) from fun r => rfl]
      apply containsSub_append_left
      apply containsSub_append_left
      apply containsSub_append_left
      exact containsSub_of_starts _ _ (startsWithSeg_self_append _ _)
  · intro h0
    cases hcs : containsSub (chars "Document ID") (RAGPipeline.source_info fmt i doc) with
    | false => rfl
    | true =>
      have := hfwd hcs
      rw [h0] at this
      exact absurd this (by decide)

/-- Witness for C10: a document with `document_id = 0` and
`chunk_index = 0`, rendered with a concrete digits-and-dot formatter. -/
theorem C10_witness :
    containsSub (chars "Document ID")
        (RAGPipeline.source_info (fun _ => chars "0.95") 1
          ⟨chars "idx", chars "body", ⟨some 0, some 0⟩, 1/2⟩) = false ∧
    containsSub (chars "Chunk: 0")
        (RAGPipeline.source_info (fun _ => chars "0.95") 1
          ⟨chars "idx", chars "body", ⟨some 0, some 0⟩, 1/2⟩) = true := by
  have h := C10_source_info_conditional_segments (fun _ => chars "0.95")
    (fun q => by
      show ∀ c ∈ chars "0.95", c.isDigit = true ∨ c = '.'
      decide) 1 ⟨chars "idx", chars "body", ⟨some 0, some 0⟩, 1/2⟩
  exact ⟨h.2.2.2 rfl, h.2.2.1 rfl⟩

/-!
## Claims C3 and C4
-/

theorem fixedSizeLoop_stuck (chunk_size chunk_overlap : Nat) (text : List Char)
    (hno : chunk_size ≤ chunk_overlap) :
    ∀ (fuel : Nat) (start : Int), start < (text.length : Int) →
      fixedSizeLoop chunk_size chunk_overlap text fuel start = none := by
  intro fuel
  induction fuel with
  | zero =>
    intro start h
    simp only [fixedSizeLoop, if_pos h]
  | succ n ih =>
    intro start h
    have hstep : start + (chunk_size : Int) - (chunk_overlap : Int)
        < (text.length : Int) := by
      have : (chunk_size : Int) ≤ (chunk_overlap : Int) := by exact_mod_cast hno
      omega
    simp only [fixedSizeLoop, if_pos h, ih _ hstep]
    rfl

theorem tokenWindowLoop_stuck (max_tokens overlap_tokens : Nat)
    (decode : List Nat → List Char) (tokens : List Nat)
    (hno : max_tokens ≤ overlap_tokens) :
    ∀ (fuel : Nat) (start : Int), start < (tokens.length : Int) →
      tokenWindowLoop max_tokens overlap_tokens decode tokens fuel start = none := by
  intro fuel
  induction fuel with
  | zero =>
    intro start h
    simp only [tokenWindowLoop, if_pos h]
  | succ n ih =>
    intro start h
    have hstep : start + (max_tokens : Int) - (overlap_tokens : Int)
        < (tokens.length : Int) := by
      have : (max_tokens : Int) ≤ (overlap_tokens : Int) := by exact_mod_cast hno
      omega
    simp only [tokenWindowLoop, if_pos h, ih _ hstep]
    rfl

/-- C3 (the code side of the claim): constructing a chunker with
`chunk_size = chunk_overlap = 4` raises nothing — `TextChunker.__init__`
performs no `chunk_size`/`chunk_overlap` validation, so the embedded
constructor is total — and chunking `"ABCDEFGHIJ"` with it under the
fixed-size strategy never terminates: the window loop advances `start` by
`chunk_size - chunk_overlap = 0` and returns within no finite number of
iterations, so the fuel-indexed loop yields `none` for every fuel.  This
contradicts the claimed synchronous contract-violation error. -/
theorem C3_no_validation_nonterminating :
    (∀ fuel : Nat, fixedSizeLoop 4 4 (chars "ABCDEFGHIJ") fuel 0 = none)
    ∧ TextChunker.chunk_text ⟨4, 4, none⟩ .fixed_size none (chars "ABCDEFGHIJ") = none := by
  constructor
  · intro fuel
    exact fixedSizeLoop_stuck 4 4 _ le_rfl fuel 0 (by decide)
  · decide

/-- C4 (the code side of the claim): with `chunk_size = 5` and
`chunk_overlap = 4` — parameters satisfying `0 ≤ overlap < chunkSize` — the
token-based strategy does not terminate on any text that encodes to at
least one token: `max_tokens = 5 // 4 = 1` equals
`overlap_tokens = 4 // 4 = 1`, so `start = end - overlap_tokens` never
advances and the window loop yields `none` for every fuel. -/
theorem C4_token_window_nonterminating :
    ∀ (t : Tokenizer) (text : List Char), t.encode text ≠ [] →
      (∀ fuel : Nat,
        tokenWindowLoop (5 / 4) (4 / 4) t.decode (t.encode text) fuel 0 = none)
      ∧ TextChunker.chunk_token_based ⟨5, 4, some t⟩ none text = none := by
  intro t text h
  have hl : (0 : Int) < ((t.encode text).length : Int) := by
    have := List.length_pos.mpr h
    exact_mod_cast this
  constructor
  · intro fuel
    exact tokenWindowLoop_stuck (5 / 4) (4 / 4) t.decode (t.encode text)
      (by norm_num) fuel 0 hl
  · have hstuck := tokenWindowLoop_stuck 1 1 t.decode (t.encode text) le_rfl
      ((t.encode text).length + 1) 0 hl
    simp [TextChunker.chunk_token_based, pyOrNat, hstuck]

/-- Witness for C4: a concrete tokenizer mapping every text to one token. -/
theorem C4_witness :
    (Tokenizer.mk (fun _ => [0]) (fun _ => [])).encode (chars "hi") ≠ [] ∧
    TextChunker.chunk_token_based
        ⟨5, 4, some (Tokenizer.mk (fun _ => [0]) (fun _ => []))⟩ none (chars "hi")
      = none := by
  refine ⟨by simp, ?_⟩
  exact (C4_token_window_nonterminating (Tokenizer.mk (fun _ => [0]) (fun _ => []))
    (chars "hi") (by simp)).2

/-!
## Claim C8
-/

theorem pySlice_natCast {α : Type} (l : List α) (a b : Nat) :
    pySlice l (a : Int) (b : Int) = (l.drop a).take (b - a) := by
  unfold pySlice pyIdx
  have ha : ¬((a : Int) < 0) := by omega
  have hb : ¬((b : Int) < 0) := by omega
  rw [if_neg ha, if_neg hb, Int.toNat_natCast, Int.toNat_natCast]
  have h1 : l.take (min b l.length) = l.take b := by
    rcases Nat.le_total b l.length with h | h
    · rw [min_eq_left h]
    · rw [min_eq_right h, List.take_length, List.take_of_length_le h]
  rw [h1]
  rcases Nat.le_total a l.length with h | h
  · rw [min_eq_left h, List.drop_take]
  · rw [min_eq_right h]
    have hlen : (l.take b).length ≤ l.length := by
      rw [List.length_take]
      omega
    rw [List.drop_eq_nil_of_le hlen, List.drop_eq_nil_of_le h, List.take_nil]

theorem fixedSizeLoop_eq_spec (size overlap : Nat) (hov : overlap < size)
    (text : List Char) :
    ∀ (fuel : Nat) (start : Nat),
      fixedSizeLoop size overlap text fuel (start : Int)
        = specFixedWindowLoop size overlap text fuel start := by
  intro fuel
  induction fuel with
  | zero =>
    intro start
    simp only [fixedSizeLoop, specFixedWindowLoop, Nat.cast_lt]
  | succ n ih =>
    intro start
    simp only [fixedSizeLoop, specFixedWindowLoop, Nat.cast_lt]
    by_cases h : start < text.length
    · rw [if_pos h, if_pos h]
      have hc : (start : Int) + (size : Int) - (overlap : Int)
          = ((start + size - overlap : Nat) : Int) := by push_cast; omega
      have hs : pySlice text (start : Int) ((start : Int) + (size : Int))
          = (text.drop start).take size := by
        rw [show (start : Int) + (size : Int) = ((start + size : Nat) : Int) by push_cast; ring,
            pySlice_natCast]
        congr 1
        omega
      rw [hc, hs, ih]
    · rw [if_neg h, if_neg h]

/-- Counterexample to C8 as stated: on `"AB  "` with `chunkSize = 2`,
`overlap = 0`, the claimed bare sliding window yields `["AB", "  "]`, but
`_chunk_fixed_size` additionally drops whitespace-only windows and returns
`["AB"]`, so the strategy is not the stated window loop alone. -/
theorem C8_counterexample :
    TextChunker.chunk_fixed_size ⟨2, 0, none⟩ (chars "AB  ")
        ≠ specFixedWindows 2 0 (chars "AB  ") ∧
    specFixedWindows 2 0 (chars "AB  ") = some [chars "AB", chars "  "] ∧
    TextChunker.chunk_fixed_size ⟨2, 0, none⟩ (chars "AB  ") = some [chars "AB"] := by
  refine ⟨by decide, by decide, by decide⟩

/-- C8 (amended): for `overlap < chunkSize` the fixed-size strategy is the
sliding character window `start = 0`; while `start < len(text)`: emit
`text[start : start+chunkSize]`; `start += chunkSize - overlap` — followed
by dropping whitespace-only windows; the claim's concrete example (which has
no whitespace-only window) is unchanged. -/
theorem C8_fixed_size_is_filtered_window :
    ∀ (size overlap : Nat) (tok : Option Tokenizer) (text : List Char),
      overlap < size →
      TextChunker.chunk_fixed_size ⟨size, overlap, tok⟩ text
          = (specFixedWindows size overlap text).map (fun cs => cs.filter keepStripped)
        ∧ TextChunker.chunk_fixed_size ⟨4, 1, none⟩ (chars "ABCDEFGHIJ")
          = some [chars "ABCD", chars "DEFG", chars "GHIJ", chars "J"] := by
  intro size overlap tok text hov
  refine ⟨?_, by decide⟩
  unfold TextChunker.chunk_fixed_size specFixedWindows
  rw [show (0 : Int) = ((0 : Nat) : Int) from rfl,
      fixedSizeLoop_eq_spec size overlap hov text _ 0]

/-- Witness for C8 at the claim's example input. -/
theorem C8_witness :
    (1 : Nat) < 4 ∧
    TextChunker.chunk_fixed_size ⟨4, 1, none⟩ (chars "ABCDEFGHIJ")
      = (specFixedWindows 4 1 (chars "ABCDEFGHIJ")).map (fun cs => cs.filter keepStripped) ∧
    TextChunker.chunk_fixed_size ⟨4, 1, none⟩ (chars "ABCDEFGHIJ")
      = some [chars "ABCD", chars "DEFG", chars "GHIJ", chars "J"] := by
  have h := C8_fixed_size_is_filtered_window 4 1 none (chars "ABCDEFGHIJ") (by decide)
  exact ⟨by decide, h.1, h.2⟩

/-!
## Claim C7
-/

theorem startsWithSeg_nil_iff (p : List Char) :
    startsWithSeg p [] = true ↔ p = [] := by
  cases p <;> simp [startsWithSeg]

theorem startsWithSeg_decomp (p : List Char) :
    ∀ s : List Char, startsWithSeg p s = true → s = p ++ s.drop p.length := by
  induction p with
  | nil => intro s h; simp
  | cons a as ih =>
    intro s h
    cases s with
    | nil => simp [startsWithSeg] at h
    | cons b t =>
      simp only [startsWithSeg, Bool.and_eq_true, decide_eq_true_eq] at h
      obtain ⟨rfl, h2⟩ := h
      simp only [List.cons_append, List.length_cons, List.drop_succ_cons]
      exact congrArg (a :: ·) (ih t h2)

theorem findSepIdx_decomp (sep : List Char) :
    ∀ (text : List Char) (i : Nat), findSepIdx sep text = some i →
      text = text.take i ++ sep ++ text.drop (i + sep.length) := by
  intro text
  induction text with
  | nil =>
    intro i h
    simp only [findSepIdx] at h
    by_cases hs : startsWithSeg sep [] = true
    · rw [if_pos hs] at h
      obtain rfl : (0 : Nat) = i := Option.some_inj.mp h
      rw [(startsWithSeg_nil_iff sep).mp hs]
      rfl
    · rw [if_neg hs] at h
      exact Option.noConfusion h
  | cons c t ih =>
    intro i h
    simp only [findSepIdx] at h
    by_cases hs : startsWithSeg sep (c :: t) = true
    · rw [if_pos hs] at h
      obtain rfl : (0 : Nat) = i := Option.some_inj.mp h
      simpa using startsWithSeg_decomp sep (c :: t) hs
    · rw [if_neg hs] at h
      cases hf : findSepIdx sep t with
      | none => rw [hf] at h; exact Option.noConfusion h
      | some j =>
        rw [hf] at h
        simp at h
        subst h
        have hj := ih j hf
        rw [show j + 1 + sep.length = (j + sep.length) + 1 from by omega]
        simp only [List.take_succ_cons, List.cons_append, List.drop_succ_cons]
        exact congrArg (c :: ·) hj

theorem findSepIdx_some_ne_nil (sep text : List Char) (hs : sep ≠ []) (i : Nat)
    (h : findSepIdx sep text = some i) : text ≠ [] := by
  intro hnil
  rw [hnil, findSepIdx_nil_of_ne sep hs] at h
  exact Option.noConfusion h

theorem pySplitAux_ne_nil (sep : List Char) (fuel : Nat) (text : List Char) :
    pySplitAux sep fuel text ≠ [] := by
  cases fuel with
  | zero => simp [pySplitAux]
  | succ n =>
    simp only [pySplitAux]
    cases findSepIdx sep text <;> simp

theorem sepJoin_pySplitAux (sep : List Char) (hs : sep ≠ []) :
    ∀ (fuel : Nat) (text : List Char), text.length ≤ fuel →
      sepJoin sep (pySplitAux sep fuel text) = text := by
  intro fuel
  induction fuel with
  | zero =>
    intro text ht
    have : text = [] := by
      cases text with
      | nil => rfl
      | cons a b => simp at ht
    subst this
    rfl
  | succ n ih =>
    intro text ht
    simp only [pySplitAux]
    cases hf : findSepIdx sep text with
    | none => rfl
    | some i =>
      obtain ⟨y, ys, hys⟩ :=
        List.exists_cons_of_ne_nil (pySplitAux_ne_nil sep n (text.drop (i + sep.length)))
      have hlen : (text.drop (i + sep.length)).length ≤ n := by
        rw [List.length_drop]
        have h1 : 0 < text.length :=
          List.length_pos.mpr (findSepIdx_some_ne_nil sep text hs i hf)
        have h2 : 0 < sep.length := List.length_pos.mpr hs
        omega
      have hIH := ih _ hlen
      rw [hys] at hIH
      show sepJoin sep (text.take i :: pySplitAux sep n (text.drop (i + sep.length))) = text
      rw [hys]
      show text.take i ++ sep ++ sepJoin sep (y :: ys) = text
      rw [hIH]
      exact (findSepIdx_decomp sep text i hf).symm

theorem sepJoin_pySplit (sep text : List Char) (hs : sep ≠ []) :
    sepJoin sep (pySplit sep text) = text :=
  sepJoin_pySplitAux sep hs text.length text le_rfl

theorem pySplit_ne_nil (sep text : List Char) : pySplit sep text ≠ [] :=
  pySplitAux_ne_nil sep text.length text

theorem sumLen_le_sepJoin (sep : List Char) :
    ∀ parts : List (List Char),
      (parts.map List.length).sum ≤ (sepJoin sep parts).length := by
  intro parts
  induction parts with
  | nil => simp [sepJoin]
  | cons x xs ih =>
    cases xs with
    | nil => simp [sepJoin]
    | cons y ys =>
      show x.length + (List.map List.length (y :: ys)).sum
        ≤ (x ++ sep ++ sepJoin sep (y :: ys)).length
      simp only [List.length_append]
      have := ih
      simp only [List.map_cons, List.sum_cons] at this ⊢
      omega

theorem accumChunksGo_fits (chunk_size chunk_overlap : Nat) (sep : List Char) :
    ∀ (parts cur : List (List Char)) (curSize : Nat) (acc : List (List Char)),
      curSize + (parts.map List.length).sum ≤ chunk_size →
      accumChunksGo chunk_size chunk_overlap sep parts cur curSize acc
        = acc ++ (if (cur ++ parts).isEmpty then []
                  else [sepJoin sep (cur ++ parts)]) := by
  intro parts
  induction parts with
  | nil =>
    intro cur curSize acc h
    simp [accumChunksGo]
  | cons p ps ih =>
    intro cur curSize acc h
    simp only [List.map_cons, List.sum_cons] at h
    have hno : ¬(curSize + p.length > chunk_size ∧ ¬cur.isEmpty = true) := by
      rintro ⟨h1, -⟩
      omega
    simp only [accumChunksGo, if_neg hno]
    rw [ih (cur ++ [p]) (curSize + p.length) acc (by omega)]
    have hl : (cur ++ [p]) ++ ps = cur ++ (p :: ps) := by simp
    rw [hl]

/-- Any fuel exits the fixed-size window loop at once when the loop
condition is already false. -/
theorem fixedSizeLoop_exit (chunk_size chunk_overlap : Nat) (text : List Char)
    (fuel : Nat) (start : Int) (h : ¬ start < (text.length : Int)) :
    fixedSizeLoop chunk_size chunk_overlap text fuel start = some [] := by
  cases fuel <;> simp [fixedSizeLoop, h]

theorem pyStrip_ne_nil_of_isEmpty_false (text : List Char)
    (h : (pyStrip text).isEmpty = false) : text ≠ [] := by
  intro hnil
  subst hnil
  simp [pyStrip] at h

theorem chunk_fixed_size_small (s o : Nat) (tok : Option Tokenizer)
    (text : List Char) (hstrip : (pyStrip text).isEmpty = false)
    (hfit : text.length + o ≤ s) :
    TextChunker.chunk_fixed_size ⟨s, o, tok⟩ text = some [text] := by
  have hne : text ≠ [] := pyStrip_ne_nil_of_isEmpty_false text hstrip
  have hlen1 : 0 < text.length := List.length_pos.mpr hne
  have h0 : (0 : Int) < (text.length : Int) := by exact_mod_cast hlen1
  unfold TextChunker.chunk_fixed_size
  simp only [fixedSizeLoop, if_pos h0]
  have hdone : fixedSizeLoop s o text text.length ((0 : Int) + (s : Int) - (o : Int))
      = some [] := by
    apply fixedSizeLoop_exit
    push_cast
    omega
  rw [hdone]
  have hslice : pySlice text (0 : Int) ((0 : Int) + (s : Int)) = text := by
    rw [show (0 : Int) = ((0 : Nat) : Int) from rfl,
        show ((0 : Nat) : Int) + (s : Int) = ((s : Nat) : Int) by push_cast; ring,
        pySlice_natCast]
    simp only [List.drop_zero, Nat.sub_zero]
    exact List.take_of_length_le (by omega)
  rw [hslice]
  have hkeep : keepStripped text = true := by
    simp [keepStripped, hstrip]
  simp [List.filter_cons, hkeep]

theorem chunk_by_paragraph_small (s o : Nat) (tok : Option Tokenizer)
    (text : List Char) (hstrip : (pyStrip text).isEmpty = false)
    (hlen : text.length ≤ s) :
    TextChunker.chunk_by_paragraph ⟨s, o, tok⟩ text = [text] := by
  have hsep : chars "\n\n" ≠ [] := by decide
  have hjoin : sepJoin (chars "\n\n") (pySplit (chars "\n\n") text) = text :=
    sepJoin_pySplit (chars "\n\n") text hsep
  have hsum : (List.map List.length (pySplit (chars "\n\n") text)).sum ≤ s := by
    have := sumLen_le_sepJoin (chars "\n\n") (pySplit (chars "\n\n") text)
    rw [hjoin] at this
    omega
  unfold TextChunker.chunk_by_paragraph
  rw [accumChunksGo_fits s o (chars "\n\n") (pySplit (chars "\n\n") text) [] 0 []
        (by simpa using hsum)]
  have hne : ([] : List (List Char)) ++ pySplit (chars "\n\n") text ≠ [] := by
    simpa using pySplit_ne_nil (chars "\n\n") text
  rw [if_neg (by simpa [List.isEmpty_iff] using hne)]
  simp only [List.nil_append, hjoin]
  have hkeep : keepStripped text = true := by
    simp [keepStripped, hstrip]
  simp [List.filter_cons, hkeep]

theorem splitTextAux_small (cs co : Nat) (tok : Option Tokenizer)
    (seps : List (List Char)) (text : List Char) (h : text.length ≤ cs) :
    splitTextAux cs co tok seps text
      = some (if (pyStrip text).isEmpty then [] else [text]) := by
  unfold splitTextAux
  rw [if_pos h]

theorem chunk_recursive_small (s o : Nat) (tok : Option Tokenizer)
    (text : List Char) (hstrip : (pyStrip text).isEmpty = false)
    (hlen : text.length ≤ s) :
    TextChunker.chunk_recursive ⟨s, o, tok⟩ none text = some [text] := by
  unfold TextChunker.chunk_recursive
  show Option.map (fun cs => List.filter keepStripped cs)
      (splitTextAux s o tok TextChunker.DEFAULT_SEPARATORS text) = some [text]
  rw [splitTextAux_small s o tok _ text hlen]
  have hkeep : keepStripped text = true := by
    simp [keepStripped, hstrip]
  simp [hstrip, List.filter_cons, hkeep]

theorem chunkTexts_of_dispatch (self : TextChunker) (strategy : ChunkingStrategy)
    (docId : Option Int) (text : List Char)
    (hstrip : (pyStrip text).isEmpty = false)
    (hdisp : (match strategy with
      | .recursive => self.chunk_recursive none text
      | .token_based => self.chunk_token_based none text
      | .sentence => some (self.chunk_by_sentence text)
      | .paragraph => some (self.chunk_by_paragraph text)
      | .fixed_size => self.chunk_fixed_size text) = some [text]) :
    chunkTexts (self.chunk_text strategy docId text) = some [text] := by
  unfold TextChunker.chunk_text chunkTexts
  simp only [hstrip, Bool.false_eq_true, if_false, hdisp]
  rfl

/-- C7 (amended): for every non-empty-after-trimming text with
`len(text) ≤ chunkSize`, the recursive and paragraph strategies return
exactly one chunk whose text (hence trimmed text) equals the input; the
fixed-size strategy does so under the extra condition
`len(text) ≤ chunkSize − overlap`; and the sentence strategy can return a
single chunk whose trimmed text differs from the trimmed input, because it
rejoins sentences with single spaces — concretely, `"Hi.\nBye"` with
`chunkSize = 100`, `overlap = 0` yields the single chunk `"Hi. Bye"`. -/
theorem C7_small_text_single_chunk :
    (∀ (s o : Nat) (tok : Option Tokenizer) (docId : Option Int) (text : List Char),
      (pyStrip text).isEmpty = false → text.length ≤ s →
      chunkTexts (TextChunker.chunk_text ⟨s, o, tok⟩ .recursive docId text) = some [text]
      ∧ chunkTexts (TextChunker.chunk_text ⟨s, o, tok⟩ .paragraph docId text) = some [text]
      ∧ (text.length + o ≤ s →
          chunkTexts (TextChunker.chunk_text ⟨s, o, tok⟩ .fixed_size docId text)
            = some [text]))
    ∧ chunkTexts (TextChunker.chunk_text ⟨100, 0, none⟩ .sentence none (chars "Hi.\nBye"))
        = some [chars "Hi. Bye"]
    ∧ pyStrip (chars "Hi. Bye") ≠ pyStrip (chars "Hi.\nBye") := by
  refine ⟨?_, by decide, by decide⟩
  intro s o tok docId text hstrip hlen
  refine ⟨?_, ?_, ?_⟩
  · exact chunkTexts_of_dispatch ⟨s, o, tok⟩ .recursive docId text hstrip
      (chunk_recursive_small s o tok text hstrip hlen)
  · exact chunkTexts_of_dispatch ⟨s, o, tok⟩ .paragraph docId text hstrip
      (by simpa using congrArg some (chunk_by_paragraph_small s o tok text hstrip hlen))
  · intro hfit
    exact chunkTexts_of_dispatch ⟨s, o, tok⟩ .fixed_size docId text hstrip
      (chunk_fixed_size_small s o tok text hstrip hfit)

/-- Counterexample to C7 as stated: `"ABC"` is non-empty after trimming and
has length `3 ≤ 4 = chunkSize`, yet the fixed-size strategy with
`overlap = 2` returns two chunks (`["ABC", "C"]`), not exactly one. -/
theorem C7_counterexample :
    (pyStrip (chars "ABC")).isEmpty = false ∧
    (chars "ABC").length ≤ 4 ∧
    chunkTexts (TextChunker.chunk_text ⟨4, 2, none⟩ .fixed_size none (chars "ABC"))
      = some [chars "ABC", chars "C"] ∧
    (TextChunker.chunk_text ⟨4, 2, none⟩ .fixed_size none (chars "ABC")).map List.length
      = some 2 := by
  refine ⟨by decide, by decide, by decide, by decide⟩

/-- Witness for C7 at a concrete small text. -/
theorem C7_witness :
    (pyStrip (chars "Hello")).isEmpty = false ∧
    (chars "Hello").length ≤ 10 ∧
    chunkTexts (TextChunker.chunk_text ⟨10, 2, none⟩ .recursive none (chars "Hello"))
      = some [chars "Hello"] ∧
    chunkTexts (TextChunker.chunk_text ⟨10, 2, none⟩ .paragraph none (chars "Hello"))
      = some [chars "Hello"] ∧
    chunkTexts (TextChunker.chunk_text ⟨10, 2, none⟩ .fixed_size none (chars "Hello"))
      = some [chars "Hello"] := by
  have h := C7_small_text_single_chunk.1 10 2 none none (chars "Hello")
    (by decide) (by decide)
  exact ⟨by decide, by decide, h.1, h.2.1, h.2.2 (by decide)⟩
